import Mathlib

/-!
Formal model of the UCSC event-tracker server (`src/unnamed/part_000`).

The JavaScript source is shallowly embedded: each function of the pipeline
(`parseCampusDate`, `fallbackClassification`, `rowToEvent`, `classifyWithRetry`,
and the `POST /api/refresh` handler) becomes an executable Lean definition,
translated clause by clause from the source.  JavaScript strings are `String`,
JS arrays are `List`, JS numbers used as counts are `Nat`/`Int`, the single
floating value (`confidence`) is `Rat`, and a `Date` value is either an
Invalid Date or a record of the constructor's calendar components, with
validity decided by ECMAScript's TimeClip (time values beyond
±8,640,000,000,000,000 ms, i.e. ±100,000,000 days, are NaN).  The month table
access `months[tok]` is a JS property read and is modelled with the
prototype-chain hits reachable from lowercased tokens (`"constructor"` and
`"__proto__"`), which yield a non-null inherited value that coerces to NaN.
Code that throws is modelled with `Except`: `toISOString()` on an Invalid
Date raises a RangeError, so the heuristic classifier and the orchestrator
are fallible.  The remote classifier is a parameter giving the outcome of
each attempt.

Two deliberate simplifications, neither reachable by the claims: a valid
date stores the raw constructor components without calendar normalisation
(only validity, which is computed on the normalised time value, matters
downstream), and rational arithmetic is exact where IEEE doubles would
round (the claims instantiate only small integers).  The constructor's
0..99 → 1900-added year rule is not modelled: the year argument is
`getFullYear()` of the running clock.
-/

set_option maxRecDepth 4096

namespace EventTracker

/-- Calendar components as passed to the source's
`new Date(y, m, d, hh, mm, 0)`: month 0-based as in JavaScript.  `day` is
`Int` because `parseInt` may produce a negative day. -/
structure DateTime where
  year : Int
  month : Nat
  day : Int
  hour : Nat
  minute : Nat
  second : Nat
deriving DecidableEq, Repr

/-- A JavaScript `Date` value: either an Invalid Date (time value NaN) or a
valid date, carried as the constructor components that produced it. -/
inductive JsDate where
  | invalid
  | valid (dt : DateTime)
deriving DecidableEq, Repr

/-- The RangeError thrown by `Date.prototype.toISOString` on an Invalid
Date. -/
inductive RangeError where
  | invalidTime
deriving DecidableEq, Repr

/-- Message of the thrown RangeError (V8's text; the route only tests it for
truthiness). -/
def RangeError.jsMessage : RangeError → String
  | .invalidTime => "Invalid time value"

deriving instance DecidableEq for Except

/-! ### Character and string utilities shared by the tokenizers -/

/-- Whitespace as used by the source's `\s`, `trim()` and `Number()` on the
ASCII inputs the system handles (space, tab, line feed, vertical tab, form
feed, carriage return). -/
def isWsChar (c : Char) : Bool :=
  c = ' ' || c = '\t' || c = '\n' || c = '\x0b' || c = '\x0c' || c = '\r'

/-- Characters matched by the source's `[a-z0-9]` token regex. -/
def isTokenChar (c : Char) : Bool :=
  ('a' ≤ c && c ≤ 'z') || ('0' ≤ c && c ≤ '9')

/-- Maximal runs of characters satisfying `p`, accumulator-passing so that the
kernel can evaluate it.  `acc` holds the current run reversed. -/
def runsAux (p : Char → Bool) : List Char → List Char → List String
  | acc, [] => if acc.isEmpty then [] else [String.mk acc.reverse]
  | acc, c :: cs =>
    if p c then
      runsAux p (c :: acc) cs
    else if acc.isEmpty then
      runsAux p [] cs
    else
      String.mk acc.reverse :: runsAux p [] cs

/-- Split a character list into the maximal runs satisfying `p`
(the non-matching characters act as separators). -/
def splitRuns (p : Char → Bool) (cs : List Char) : List String :=
  runsAux p [] cs

/-- Lowercased character list of a string (the source's `toLowerCase()`;
ASCII, which covers every keyword and date token the system compares). -/
def toLowerList (s : String) : List Char :=
  s.toList.map Char.toLower

/-- Lowercased string. -/
def toLowerStr (s : String) : String :=
  String.mk (toLowerList s)

/-- Digits-to-number accumulation for a list of decimal digit characters. -/
def digitsToNat (cs : List Char) : Nat :=
  cs.foldl (fun a c => a * 10 + (c.toNat - 48)) 0

/-- The leading decimal-digit prefix of `cs` as a number; `none` when there is
no leading digit (JavaScript `NaN`). -/
def digitsVal (cs : List Char) : Option Nat :=
  let ds := cs.takeWhile Char.isDigit
  if ds.isEmpty then none else some (digitsToNat ds)

/-- Model of `parseInt(s, 10)`: skip leading whitespace, optional sign, then
the longest decimal-digit prefix; `none` models `NaN`.  (Trailing garbage is
ignored, exactly as `parseInt` does.) -/
def jsParseInt (s : String) : Option Int :=
  match s.toList.dropWhile isWsChar with
  | '-' :: rest => (digitsVal rest).map (fun n => -(n : Int))
  | '+' :: rest => (digitsVal rest).map (fun n => (n : Int))
  | cs => (digitsVal cs).map (fun n => (n : Int))

/-! ### Date Normalizer (`parseCampusDate`, source lines 70-93) -/

/-- The source's month-abbreviation table
`{ jan:0, feb:1, ..., sep:8, sept:8, ..., dec:11 }` — its own properties. -/
def monthPairs : List (String × Nat) :=
  [("jan", 0), ("feb", 1), ("mar", 2), ("apr", 3), ("may", 4), ("jun", 5),
   ("jul", 6), ("aug", 7), ("sep", 8), ("sept", 8), ("oct", 9), ("nov", 10),
   ("dec", 11)]

/-- Outcome of the property read `months[tok]`: an own property (a month
index), a non-null value inherited from `Object.prototype`, or `undefined`. -/
inductive MonthLookup where
  | month (m : Nat)
  | protoJunk
  | undefinedVal
deriving DecidableEq, Repr

/-- Model of `months[parts[0]]`: a JS property access walks the prototype
chain, so besides the 13 own keys, the lowercased tokens `"constructor"` and
`"__proto__"` resolve to non-null `Object.prototype` values (a function and
an object), which are not `== null` and coerce to NaN in the `Date`
constructor.  Every other inherited name of `Object.prototype`
(`toString`, `valueOf`, `hasOwnProperty`, ...) contains an upper-case letter
and is unreachable from a lowercased token. -/
def monthLookup (s : String) : MonthLookup :=
  match monthPairs.lookup s with
  | some m => .month m
  | none =>
    if s = "constructor" || s = "__proto__" then .protoJunk else .undefinedVal

/-- The day expression `parseInt(parts[1], 10) || 1`: `NaN`, `0` and `-0` are
falsy and default to `1`. -/
def jsDay (s : String) : Int :=
  match jsParseInt s with
  | none => 1
  | some 0 => 1
  | some v => v

/-- The `\s*(am|pm)?$` tail of the time regex: `some mer` on a match (with
`mer` the optional meridiem), `none` when the regex fails. -/
def merTail (cs : List Char) : Option (Option String) :=
  match cs.dropWhile isWsChar with
  | [] => some none
  | ['a', 'm'] => some (some "am")
  | ['p', 'm'] => some (some "pm")
  | _ => none

/-- The `(?::(\d{2}))?` optional-minutes group: absent minutes yield `0`
(the source's `m2[2] ? parseInt(m2[2], 10) : 0`).  A `:` not followed by
exactly two digits makes the whole anchored regex fail (backtracking to an
empty group cannot succeed because the rest would then start with `:`). -/
def minutesPart (cs : List Char) : Option (Nat × List Char) :=
  match cs with
  | ':' :: a :: b :: rest =>
    if a.isDigit && b.isDigit then some (digitsToNat [a, b], rest) else none
  | ':' :: _ => none
  | _ => some (0, cs)

/-- The `^(\d{1,2})` hour group, greedy.  Backtracking to one digit can never
rescue a failed two-digit match because the leftover would begin with a digit,
which no later regex piece accepts, so the greedy parse is exact. -/
def hourPart (cs : List Char) : Option (Nat × List Char) :=
  match cs with
  | [] => none
  | [a] => if a.isDigit then some (digitsToNat [a], []) else none
  | a :: b :: rest =>
    if a.isDigit then
      if b.isDigit then some (digitsToNat [a, b], rest)
      else some (digitsToNat [a], b :: rest)
    else none

/-- Full anchored match of `^(\d{1,2})(?::(\d{2}))?\s*(am|pm)?$`, returning
hour, minutes and the optional meridiem. -/
def matchTime (s : String) : Option (Nat × Nat × Option String) :=
  match hourPart s.toList with
  | none => none
  | some (hh, r1) =>
    match minutesPart r1 with
    | none => none
    | some (mm, r2) =>
      match merTail r2 with
      | none => none
      | some mer => some (hh, mm, mer)

/-- The source's sequential meridiem adjustment:
`if (mer === "pm" && hh < 12) hh += 12; if (mer === "am" && hh === 12) hh = 0;`. -/
def to24Hour (hh : Nat) (mer : Option String) : Nat :=
  let h1 := if mer = some "pm" ∧ hh < 12 then hh + 12 else hh
  if mer = some "am" ∧ h1 = 12 then 0 else h1

/-- Hour/minute extraction from the re-joined tail tokens: defaults `(9, 0)`
when the tail is empty or the time regex does not match. -/
def timeOf (timeRaw : String) : Nat × Nat :=
  if timeRaw = "" then (9, 0)
  else
    match matchTime timeRaw with
    | some (hh, mm, mer) => (to24Hour hh mer, mm)
    | none => (9, 0)

/-- Model of `s.trim().toLowerCase().replace(/\s+/g, " ").split(" ")`: for the
inputs this yields the maximal non-whitespace runs of the lowercased string
(an all-whitespace string gives `[""]` in JS and `[]` here; both make the
month lookup fail, so `parseCampusDate` agrees on every input). -/
def partsOf (s : String) : List String :=
  splitRuns (fun c => !(isWsChar c)) (toLowerList s)

/-- Model of `parts.slice(2).join(" ")`. -/
def joinSpace (l : List String) : String :=
  String.intercalate " " l

/-- Day number from the epoch 1970-01-01 of the date `(y, m, d)` with `m`
1-based, exactly ECMAScript's MakeDay for a month already in `0..11`: the
standard civil-from-days arithmetic on the first of the month plus `d - 1`
(an out-of-range `d` rolls over arithmetically, as MakeDay does).  All the
divisions have positive divisors, where Lean's Euclidean `/` agrees with the
specification's floor. -/
def daysFromCivil (y : Int) (m : Nat) (d : Int) : Int :=
  let y2 : Int := if m ≤ 2 then y - 1 else y
  let era : Int := y2 / 400
  let yoe : Int := y2 - era * 400
  let mp : Nat := (m + 9) % 12
  let doy : Int := (153 * (mp : Int) + 2) / 5 + (d - 1)
  let doe : Int := yoe * 365 + yoe / 4 - yoe / 100 + doy
  era * 146097 + doe - 719468

/-- Model of `new Date(y, m, d, hh, mm, 0)` for a month index `m` in `0..11`:
the time value in milliseconds is clipped by ECMAScript's TimeClip to
±8,640,000,000,000,000 ms; outside that range the result is an Invalid
Date.  A valid date keeps the constructor components (see the header note on
calendar normalisation). -/
def mkDate (y : Int) (m : Nat) (d : Int) (hh mm : Nat) : JsDate :=
  let day := daysFromCivil y (m + 1) d
  let tv : Int := day * 86400000 + (hh : Int) * 3600000 + (mm : Int) * 60000
  if -8640000000000000 ≤ tv ∧ tv ≤ 8640000000000000 then
    JsDate.valid ⟨y, m, d, hh, mm, 0⟩
  else JsDate.invalid

/-- Model of `parseCampusDate` (source lines 70-93).  `now` stands for
`new Date()` / the current year; the function is pure in the source apart
from reading the clock.  The guard `m == null` passes a prototype-chain hit
through to the `Date` constructor, where the junk month coerces to NaN and
produces an Invalid Date; a resolved month goes through the constructor's
TimeClip.  The source's final `isNaN(d)` test can never fire because `d` was
already defaulted by `|| 1`. -/
def parseCampusDate (now : DateTime) (s : String) : JsDate :=
  if s = "" then JsDate.valid now
  else
    let parts := partsOf s
    let m := monthLookup (parts.headD "")
    let d := jsDay (parts.getD 1 "")
    let t := timeOf (joinSpace (parts.drop 2))
    match m with
    | .undefinedVal => JsDate.valid now
    | .protoJunk => JsDate.invalid
    | .month mo => mkDate now.year mo d t.1 t.2

/-! ### Data model -/

/-- One ingested record (`rowToEvent`'s output shape, source lines 144-154). -/
structure RawEvent where
  title : String
  date : String
  time : String
  location : String
  org : String
  description : String
  url : String
deriving DecidableEq, Repr

/-- The classification record of `classificationSchema` (source lines 38-67).
`normalized_date` is carried as the parsed timestamp; `confidence` is `Rat`. -/
structure Classification where
  category : String
  tags : List String
  audience : List String
  normalized_date : DateTime
  location_type : String
  confidence : Rat
  rationale : String
deriving DecidableEq, Repr

/-- RawEvent plus its classification (`{ ...ev, classification: cls }`). -/
structure ClassifiedEvent where
  event : RawEvent
  classification : Classification
deriving DecidableEq, Repr

/-- Model of `rowToEvent` (source lines 144-154): fixed column order with `""`
defaults (for string cells `row[i] || ""` and a missing-index default
agree). -/
def rowToEvent (row : List String) : RawEvent :=
  { title := row.getD 0 ""
    date := row.getD 1 ""
    time := ""
    location := row.getD 2 ""
    org := row.getD 3 ""
    description := row.getD 4 ""
    url := row.getD 5 "" }

/-! ### The strict output schema (source lines 38-67) -/

/-- The 10-label `category` enum of `classificationSchema`. -/
def categoryEnum : List String :=
  ["Academic", "Career", "Social", "Cultural", "Sports",
   "Workshop", "Volunteer", "Club/Org", "Admin/Advising", "Other"]

/-- The 5-label `audience` enum of `classificationSchema`. -/
def audienceEnum : List String :=
  ["Undergrad", "Grad", "Alumni", "Staff", "Public"]

/-- The 4-label `location_type` enum of `classificationSchema`. -/
def locationTypeEnum : List String :=
  ["On-campus", "Off-campus", "Virtual", "Hybrid"]

/-- The checkable constraints of `classificationSchema`: closed enum sets,
`tags` at most 8 items, `audience` 1 to 3 items from its enum, `confidence`
in `[0, 1]`.  (`normalized_date` and `rationale` are constrained only in
type; the timestamp is always present by construction here.) -/
def schemaValidB (c : Classification) : Bool :=
  categoryEnum.contains c.category
  && decide (c.tags.length ≤ 8)
  && decide (1 ≤ c.audience.length)
  && decide (c.audience.length ≤ 3)
  && c.audience.all (fun a => audienceEnum.contains a)
  && locationTypeEnum.contains c.location_type
  && decide (0 ≤ c.confidence)
  && decide (c.confidence ≤ 1)

/-! ### Heuristic Classifier (`fallbackClassification`, source lines 96-141) -/

/-- Membership test `tokens.has(w)` on the token set built by the source:
membership in the token list (JS `Set` membership coincides with list
membership). -/
def hasTok (toks : List String) (w : String) : Bool :=
  toks.contains w

/-- Model of `text.match(/[a-z0-9]+/g)` on the lowercased text. -/
def tokensOf (s : String) : List String :=
  splitRuns isTokenChar (toLowerList s)

/-- The token set of an event: built from
`` `${ev.title} ${ev.description} ${ev.location}` ``. -/
def eventTokens (ev : RawEvent) : List String :=
  tokensOf (ev.title ++ " " ++ ev.description ++ " " ++ ev.location)

/-- The category if/else-if chain (source lines 101-109). -/
def fbCategory (toks : List String) : String :=
  if hasTok toks "workshop" || hasTok toks "tutorial" || hasTok toks "bootcamp" then "Workshop"
  else if hasTok toks "career" || hasTok toks "recruit" || hasTok toks "internship" then "Career"
  else if hasTok toks "game" || hasTok toks "party" || hasTok toks "mixer" || hasTok toks "social" then "Social"
  else if hasTok toks "club" || hasTok toks "org" || hasTok toks "meeting" then "Club/Org"
  else if hasTok toks "volunteer" || hasTok toks "service" then "Volunteer"
  else if hasTok toks "lecture" || hasTok toks "seminar" || hasTok toks "talk" || hasTok toks "colloquium" then "Academic"
  else if hasTok toks "basketball" || hasTok toks "soccer" || hasTok toks "run" || hasTok toks "tournament" then "Sports"
  else if hasTok toks "heritage" || hasTok toks "cultural" || hasTok toks "festival" || hasTok toks "film" then "Cultural"
  else "Other"

/-- Audience build-up (source lines 111-115) followed by `slice(0, 3)`:
the pushes are modelled as appended conditional singletons. -/
def fbAudience (toks : List String) : List String :=
  (["Undergrad"]
    ++ (if hasTok toks "graduate" || hasTok toks "phd" || hasTok toks "ms" then ["Grad"] else [])
    ++ (if hasTok toks "alumni" then ["Alumni"] else [])
    ++ (if hasTok toks "staff" then ["Staff"] else [])
    ++ (if hasTok toks "public" || hasTok toks "community" then ["Public"] else [])).take 3

/-- The `location_type` conditional chain (source lines 117-121). -/
def fbLocationType (toks : List String) : String :=
  if hasTok toks "zoom" || hasTok toks "virtual" || hasTok toks "online" then "Virtual"
  else if hasTok toks "hybrid" then "Hybrid"
  else if hasTok toks "campus" || hasTok toks "hall" || hasTok toks "center" || hasTok toks "theater" || hasTok toks "lab" then "On-campus"
  else "Off-campus"

/-- Model of `Array.from(new Set(tags))`: first-occurrence deduplication, with
the already-seen elements carried in `seen`. -/
def jsDedupAux (seen : List String) : List String → List String
  | [] => []
  | x :: xs =>
    if seen.contains x then jsDedupAux seen xs
    else x :: jsDedupAux (x :: seen) xs

/-- First-occurrence deduplication of a list, as a JS `Set` iterates. -/
def jsDedup (l : List String) : List String :=
  jsDedupAux [] l

/-- Tag build-up (source lines 125-134): conditional pushes, then
`Array.from(new Set(tags)).slice(0, 8)`. -/
def fbTags (toks : List String) (category : String) : List String :=
  (jsDedup
    ((if category ≠ "Other" then [toLowerStr category] else [])
      ++ (if hasTok toks "free" then ["free"] else [])
      ++ (if hasTok toks "food" || hasTok toks "pizza" then ["food"] else [])
      ++ (if hasTok toks "resume" then ["resume"] else [])
      ++ (if hasTok toks "tech" || hasTok toks "cs" || hasTok toks "gds" then ["tech"] else []))).take 8

/-- Model of `fallbackClassification` (source lines 96-141).  `now` is the
clock value that `parseCampusDate` would read.  The source computes
`parseCampusDate(ev.date || "").toISOString()` at line 123: when the parsed
date is an Invalid Date, `toISOString()` throws a RangeError out of the
function — so the classifier is fallible, succeeding exactly when the date
is valid.  (All the other field computations are pure and total.) -/
def fallbackClassification (now : DateTime) (ev : RawEvent) :
    Except RangeError Classification :=
  match parseCampusDate now ev.date with
  | .invalid => .error .invalidTime
  | .valid dt =>
    .ok
      { category := fbCategory (eventTokens ev)
        tags := fbTags (eventTokens ev) (fbCategory (eventTokens ev))
        audience := fbAudience (eventTokens ev)
        normalized_date := dt
        location_type := fbLocationType (eventTokens ev)
        confidence := 1 / 4
        rationale := "Fallback classification used due to API quota or transient errors." }

/-! ### Orchestrator (`classifyWithRetry`, source lines 195-212)

The remote classifier (`classifyEvent`, source lines 157-192) is modelled as
a function from the attempt index to that attempt's outcome: a thrown error
carrying an optional HTTP status and a message, or the parsed response.  A
parse failure of the response text is the thrown `Error("bad_json")`, i.e. an
error with no status and message `"bad_json"`.  The parsed response is NOT
validated locally by the source — any `Classification` value can come back.
The fallback call `return fallbackClassification(ev)` sits inside the catch
block, so a RangeError it throws propagates out of `classifyWithRetry`; the
orchestrator's outcome is therefore an `Except RangeError Classification`. -/

/-- A thrown remote-call error: `status` models
`e?.status || e?.response?.status` collapsed into one optional field. -/
structure RemoteError where
  status : Option Nat
  message : String
deriving DecidableEq, Repr

/-- The retry-eligibility test of source lines 201-204:
`is429 || is5xx || e.message === "bad_json"`. -/
def retryable (e : RemoteError) : Bool :=
  let is429 := e.status == some 429
  let is5xx :=
    match e.status with
    | some s => decide (500 ≤ s) && decide (s < 600)
    | none => false
  is429 || is5xx || (e.message == "bad_json")

/-- The retry loop.  The source iterates `attempt` from `0` to `maxRetries`
and retries when `attempt < maxRetries && retryable`; here the recursion runs
on `remaining = maxRetries - attempt` (so the guard `attempt < maxRetries` is
`remaining > 0`), keeping `attempt`, the current `delay`, and the total time
slept so far.  Returns (outcome, total sleep, attempts made), the outcome
being the remote success, the fallback's success, or the fallback's
propagated RangeError. -/
def retryGo (client : Nat → Except RemoteError Classification) (now : DateTime)
    (ev : RawEvent) : Nat → Nat → Nat → Nat →
      (Except RangeError Classification) × Nat × Nat
  | attempt, _, slept, 0 =>
    match client attempt with
    | .ok c => (.ok c, slept, attempt + 1)
    | .error _ => (fallbackClassification now ev, slept, attempt + 1)
  | attempt, delay, slept, r + 1 =>
    match client attempt with
    | .ok c => (.ok c, slept, attempt + 1)
    | .error e =>
      if retryable e then
        retryGo client now ev (attempt + 1) (delay * 2) (slept + delay) r
      else (fallbackClassification now ev, slept, attempt + 1)

/-- Model of `classifyWithRetry(ev, maxRetries = 2)` (source lines 195-212):
starts at attempt `0` with delay `1500` and no sleep yet. -/
def classifyWithRetry (client : Nat → Except RemoteError Classification)
    (now : DateTime) (ev : RawEvent) (maxRetries : Nat := 2) :
    (Except RangeError Classification) × Nat × Nat :=
  retryGo client now ev 0 1500 0 maxRetries

/-! ### Batch Pipeline / `POST /api/refresh` (source lines 215-247) -/

/-- A JavaScript number as needed by the `MAX_EVENTS` path: `NaN`, an
infinity, or a rational value. -/
inductive JsNum where
  | nan
  | posInf
  | negInf
  | num (q : Rat)
deriving DecidableEq, Repr

/-- Hexadecimal digit test for the `0x` form of `Number()`. -/
def isHexDigit (c : Char) : Bool :=
  c.isDigit || ('a' ≤ c && c ≤ 'f') || ('A' ≤ c && c ≤ 'F')

/-- Value of one digit in bases up to 16. -/
def hexDigitVal (c : Char) : Nat :=
  if c.isDigit then c.toNat - 48
  else if 'a' ≤ c && c ≤ 'f' then c.toNat - 87
  else c.toNat - 55

/-- Digits-to-number accumulation in base `b`. -/
def digitsToNatBase (b : Nat) (cs : List Char) : Nat :=
  cs.foldl (fun a c => a * b + hexDigitVal c) 0

/-- A non-decimal integer body of `Number()` (after `0x`/`0o`/`0b`): one or
more digits of the base, nothing else. -/
def parseRadix (b : Nat) (isD : Char → Bool) (cs : List Char) : Option Rat :=
  if !cs.isEmpty && cs.all isD then some ((digitsToNatBase b cs : Nat) : Rat)
  else none

/-- The ExponentPart `(e|E)(+|-)?digits` tail value, given the characters
after the `e`/`E`. -/
def parseExponent (cs : List Char) : Option Int :=
  match cs with
  | '+' :: ds =>
    if !ds.isEmpty && ds.all Char.isDigit then some ((digitsToNat ds : Nat) : Int)
    else none
  | '-' :: ds =>
    if !ds.isEmpty && ds.all Char.isDigit then some (-((digitsToNat ds : Nat) : Int))
    else none
  | ds =>
    if !ds.isEmpty && ds.all Char.isDigit then some ((digitsToNat ds : Nat) : Int)
    else none

/-- Attach an optional exponent part to a parsed mantissa; anything else
trailing makes the literal invalid. -/
def withExponent (mant : Rat) (cs : List Char) : Option Rat :=
  match cs with
  | [] => some mant
  | 'e' :: re => (parseExponent re).map (fun ex => mant * (10 : Rat) ^ ex)
  | 'E' :: re => (parseExponent re).map (fun ex => mant * (10 : Rat) ^ ex)
  | _ => none

/-- StrUnsignedDecimalLiteral without the `Infinity` form:
`digits [. digits] [exp]` or `. digits [exp]` (`"1."` and `".5"` are valid,
`"."` alone is not).  The value is exact rational; see the header note on
IEEE rounding. -/
def parseDecimal (cs : List Char) : Option Rat :=
  let ip := cs.takeWhile Char.isDigit
  match cs.dropWhile Char.isDigit with
  | '.' :: r2 =>
    let fp := r2.takeWhile Char.isDigit
    if ip.isEmpty && fp.isEmpty then none
    else
      withExponent
        ((digitsToNat ip : Rat) + (digitsToNat fp : Rat) / ((10 : Rat) ^ fp.length))
        (r2.dropWhile Char.isDigit)
  | rest =>
    if ip.isEmpty then none else withExponent (digitsToNat ip : Rat) rest

/-- A signed body of `Number()`: `Infinity` or a decimal literal.  The sign
does not apply to the `0x`/`0o`/`0b` forms, exactly as in the
StrNumericLiteral grammar. -/
def signedBody (neg : Bool) (cs : List Char) : JsNum :=
  if cs = "Infinity".toList then (if neg then .negInf else .posInf)
  else
    match parseDecimal cs with
    | some q => .num (if neg then -q else q)
    | none => .nan

/-- Model of `Number(s)`: trim whitespace; empty is `0`; then an optional
sign with `Infinity` or a decimal literal (with fraction and exponent), or an
unsigned `0x`/`0X` hexadecimal, `0o`/`0O` octal or `0b`/`0B` binary integer;
anything else is `NaN`. -/
def jsNumber (s : String) : JsNum :=
  match (s.toList.dropWhile isWsChar).reverse.dropWhile isWsChar |>.reverse with
  | [] => .num 0
  | '+' :: rest => signedBody false rest
  | '-' :: rest => signedBody true rest
  | '0' :: x :: rest =>
    if x = 'x' || x = 'X' then
      match parseRadix 16 isHexDigit rest with
      | some q => .num q
      | none => .nan
    else if x = 'o' || x = 'O' then
      match parseRadix 8 (fun c => '0' ≤ c && c ≤ '7') rest with
      | some q => .num q
      | none => .nan
    else if x = 'b' || x = 'B' then
      match parseRadix 2 (fun c => c = '0' || c = '1') rest with
      | some q => .num q
      | none => .nan
    else signedBody false ('0' :: x :: rest)
  | cs => signedBody false cs

/-- An integer or an infinity, the codomain of `ToIntegerOrInfinity`. -/
inductive IntOrInf where
  | int (i : Int)
  | posInf
  | negInf
deriving DecidableEq, Repr

/-- ECMAScript `ToIntegerOrInfinity`: `NaN` becomes `0`, infinities pass
through, finite values truncate toward zero. -/
def toIntegerOrInfinity : JsNum → IntOrInf
  | .nan => .int 0
  | .posInf => .posInf
  | .negInf => .negInf
  | .num q => .int (if 0 ≤ q then q.floor else -((-q).floor))

/-- Model of `l.slice(0, e)` for a numeric `e`: `-∞` keeps nothing, `+∞`
keeps everything, a negative end counts from the back, and the result is
clamped to the list. -/
def jsSliceTo {α : Type} (l : List α) (e : JsNum) : List α :=
  match toIntegerOrInfinity e with
  | .negInf => []
  | .posInf => l
  | .int k =>
    let fin : Int := if k < 0 then max ((l.length : Int) + k) 0 else min k (l.length : Int)
    l.take fin.toNat

/-- The guard `process.env.REFRESH_TOKEN && req.query.token !== process.env.REFRESH_TOKEN`:
an unset or empty secret disables the check. -/
def tokenRejected (refreshToken reqToken : Option String) : Bool :=
  match refreshToken with
  | none => false
  | some t => (t != "") && (reqToken != some t)

/-- Model of `Number(process.env.MAX_EVENTS || rawEvents.length)`: an unset
or empty variable falls back to the row count. -/
def effectiveMax (maxEvents : Option String) (len : Nat) : JsNum :=
  match maxEvents with
  | none => .num len
  | some s => if s = "" then .num len else jsNumber s

/-- An error thrown while fetching the sheet rows. -/
structure SheetsError where
  message : String
deriving DecidableEq, Repr

/-- The JSON replies of the refresh route, with their HTTP status. -/
structure HttpResponse where
  status : Nat
  ok : Bool
  error : Option String
  count : Option Nat
deriving DecidableEq, Repr

/-- The sequential classification loop of the refresh route (source lines
235-239): one row at a time; a RangeError escaping `classifyWithRetry`
aborts the loop (the partial `results` are discarded because the cache is
only assigned after the loop), and the first such error is what the route's
catch sees. -/
def classifyRows (client : RawEvent → Nat → Except RemoteError Classification)
    (now : DateTime) : List RawEvent → Except RangeError (List ClassifiedEvent)
  | [] => .ok []
  | ev :: rest =>
    match (classifyWithRetry (client ev) now ev 2).1 with
    | .error e => .error e
    | .ok c =>
      match classifyRows client now rest with
      | .error e => .error e
      | .ok results => .ok (⟨ev, c⟩ :: results)

/-- The `POST /api/refresh` handler (source lines 215-247).  `fetch` is the
outcome of the sheet read, `client ev` the remote-classifier behavior for the
event `ev`, `cache` the `cachedEvents` state before the request.  Returns the
cache after the request and the HTTP response.  Both a sheet-read failure and
a RangeError escaping the classification loop land in the same catch:
500 with `e?.message || "unknown_error"`, cache untouched. -/
def refreshHandler (refreshToken maxEvents reqToken : Option String)
    (fetch : Except SheetsError (List (List String)))
    (client : RawEvent → Nat → Except RemoteError Classification)
    (now : DateTime) (cache : List ClassifiedEvent) :
    List ClassifiedEvent × HttpResponse :=
  if tokenRejected refreshToken reqToken then
    (cache, { status := 401, ok := false, error := some "unauthorized", count := none })
  else
    match fetch with
    | .error e =>
      (cache,
       { status := 500, ok := false,
         error := some (if e.message = "" then "unknown_error" else e.message),
         count := none })
    | .ok rows =>
      let rawEvents := rows.map rowToEvent
      let maxN := effectiveMax maxEvents rawEvents.length
      let toClassify := jsSliceTo rawEvents maxN
      match classifyRows client now toClassify with
      | .error e =>
        (cache,
         { status := 500, ok := false,
           error := some (if e.jsMessage = "" then "unknown_error" else e.jsMessage),
           count := none })
      | .ok results =>
        (results, { status := 200, ok := true, error := none, count := some results.length })

/-! ### Spec-side definitions used for refinement statements -/

/-- The §4.2 ordered keyword-group → category rule list, as the spec words
it.  Used only to compare against the source's `fbCategory` chain. -/
def categoryRules : List (List String × String) :=
  [(["workshop", "tutorial", "bootcamp"], "Workshop"),
   (["career", "recruit", "internship"], "Career"),
   (["game", "party", "mixer", "social"], "Social"),
   (["club", "org", "meeting"], "Club/Org"),
   (["volunteer", "service"], "Volunteer"),
   (["lecture", "seminar", "talk", "colloquium"], "Academic"),
   (["basketball", "soccer", "run", "tournament"], "Sports"),
   (["heritage", "cultural", "festival", "film"], "Cultural")]

/-- First-match-wins evaluation of an ordered rule list, defaulting to
`"Other"` — the spec's description of the category decision. -/
def firstMatch (toks : List String) : List (List String × String) → String
  | [] => "Other"
  | (kws, cat) :: rest =>
    if kws.any (fun w => hasTok toks w) then cat else firstMatch toks rest

/-- The spec-side category function: the rule list of §4.2 evaluated
first-match-wins. -/
def firstMatchCategory (toks : List String) : String :=
  firstMatch toks categoryRules

/-! ### Concrete inputs used by witnesses and counterexamples -/

/-- A concrete clock instant. -/
def nowEx : DateTime := ⟨2026, 9, 12, 3, 7, 5⟩

/-- A concrete raw event (as mapped from a sheet row). -/
def evEx : RawEvent :=
  rowToEvent ["Career Workshop", "sept 26 6:00pm", "Hall", "ACM",
              "free pizza and a talk", "http://example.org"]

/-- The fallback classification of `evEx` at `nowEx`, written out. -/
def fbEx : Classification :=
  { category := "Workshop", tags := ["workshop", "free", "food"],
    audience := ["Undergrad"], normalized_date := ⟨2026, 8, 26, 18, 0, 0⟩,
    location_type := "On-campus", confidence := 1 / 4,
    rationale := "Fallback classification used due to API quota or transient errors." }

/-- The fallback classification of a row whose only cell is a short title,
written out (date empty, so the normalized date is the clock `nowEx`). -/
def clsOther : Classification :=
  { category := "Other", tags := [], audience := ["Undergrad"],
    normalized_date := nowEx, location_type := "Off-campus",
    confidence := 1 / 4,
    rationale := "Fallback classification used due to API quota or transient errors." }

/-- An event whose date cell overflows ECMAScript's ±100,000,000-day range:
the source builds an Invalid Date and `toISOString()` throws. -/
def evClip : RawEvent :=
  rowToEvent ["Clip", "jan 300000000", "", "", "", ""]

/-- An event whose date cell's month token hits the prototype chain:
`months["constructor"]` is a non-null function, the month coerces to NaN,
and the source builds an Invalid Date. -/
def evProto : RawEvent :=
  rowToEvent ["Proto", "constructor 5", "", "", "", ""]

/-- A schema-conforming classification a well-behaved remote client could
return. -/
def goodRemote : Classification :=
  { category := "Academic", tags := ["talk"], audience := ["Undergrad"],
    normalized_date := ⟨2026, 8, 26, 18, 0, 0⟩, location_type := "Virtual",
    confidence := 1, rationale := "remote" }

/-- A syntactically parseable but schema-violating remote response: the
category is outside the closed set, the audience is empty, and the
confidence exceeds 1.  `JSON.parse` accepts it; nothing in the source
re-validates it. -/
def badRemote : Classification :=
  { category := "Bogus", tags := [], audience := [],
    normalized_date := ⟨2026, 0, 1, 0, 0, 0⟩, location_type := "Nowhere",
    confidence := 5, rationale := "made up" }

/-! ### Helper lemmas -/

theorem jsDedupAux_subset {seen l : List String} {x : String}
    (h : x ∈ jsDedupAux seen l) : x ∈ l := by
  induction l generalizing seen with
  | nil => simp [jsDedupAux] at h
  | cons y ys ih =>
    rw [jsDedupAux] at h
    split at h
    · exact List.mem_cons_of_mem y (ih h)
    · rcases List.mem_cons.mp h with h1 | h1
      · exact h1 ▸ List.mem_cons_self y ys
      · exact List.mem_cons_of_mem y (ih h1)

theorem jsDedupAux_not_mem_seen {seen l : List String} {x : String}
    (h : x ∈ jsDedupAux seen l) : x ∉ seen := by
  induction l generalizing seen with
  | nil => simp [jsDedupAux] at h
  | cons y ys ih =>
    rw [jsDedupAux] at h
    split at h
    · exact ih h
    · rcases List.mem_cons.mp h with h1 | h1
      · subst h1
        rename_i hns
        intro hx
        exact hns (by simpa using hx)
      · intro hx
        exact ih h1 (List.mem_cons_of_mem _ hx)

theorem jsDedupAux_nodup (seen l : List String) : (jsDedupAux seen l).Nodup := by
  induction l generalizing seen with
  | nil => simp [jsDedupAux]
  | cons y ys ih =>
    rw [jsDedupAux]
    split
    · exact ih seen
    · refine List.nodup_cons.mpr ⟨fun hy => ?_, ih (y :: seen)⟩
      exact jsDedupAux_not_mem_seen hy (List.mem_cons_self y seen)

theorem jsDedup_nodup (l : List String) : (jsDedup l).Nodup :=
  jsDedupAux_nodup [] l

theorem jsDedup_subset {l : List String} {x : String} (h : x ∈ jsDedup l) :
    x ∈ l :=
  jsDedupAux_subset h

theorem fbCategory_contains (toks : List String) :
    categoryEnum.contains (fbCategory toks) = true := by
  unfold fbCategory
  repeat' split
  all_goals decide

theorem fbCategory_mem (toks : List String) : fbCategory toks ∈ categoryEnum := by
  simpa using fbCategory_contains toks

theorem fbTags_nodup (toks : List String) (cat : String) :
    (fbTags toks cat).Nodup := by
  unfold fbTags
  exact (jsDedup_nodup _).sublist (List.take_sublist _ _)

theorem fbTags_length_le (toks : List String) (cat : String) :
    (fbTags toks cat).length ≤ 8 := by
  unfold fbTags
  exact le_trans (List.length_take_le _ _) (by norm_num)

theorem lower_idem_of_mem_categoryEnum {c : String} (h : c ∈ categoryEnum) :
    toLowerStr (toLowerStr c) = toLowerStr c := by
  fin_cases h <;> decide

theorem fbTags_lower (toks : List String) :
    ∀ x ∈ fbTags toks (fbCategory toks), toLowerStr x = x := by
  intro x hx
  have hx2 := jsDedup_subset (List.mem_of_mem_take hx)
  simp only [List.mem_append] at hx2
  rcases hx2 with ((((h | h) | h) | h) | h)
  · by_cases hc : fbCategory toks ≠ "Other"
    · rw [if_pos hc] at h
      rcases List.mem_singleton.mp h with rfl
      exact lower_idem_of_mem_categoryEnum (fbCategory_mem toks)
    · rw [if_neg hc] at h
      simp at h
  all_goals
    split at h <;> simp_all
  all_goals
    subst h
  all_goals decide

theorem fbAudience_length_ge (toks : List String) :
    1 ≤ (fbAudience toks).length := by
  unfold fbAudience
  repeat' split
  all_goals decide

theorem fbAudience_length_le (toks : List String) :
    (fbAudience toks).length ≤ 3 := by
  unfold fbAudience
  exact le_trans (List.length_take_le _ _) (by norm_num)

theorem fbAudience_all_mem (toks : List String) :
    (fbAudience toks).all (fun a => audienceEnum.contains a) = true := by
  unfold fbAudience
  repeat' split
  all_goals decide

theorem fbLocationType_contains (toks : List String) :
    locationTypeEnum.contains (fbLocationType toks) = true := by
  unfold fbLocationType
  repeat' split
  all_goals decide

theorem schemaValidB_fallback {now : DateTime} {ev : RawEvent}
    {c : Classification} (h : fallbackClassification now ev = Except.ok c) :
    schemaValidB c = true := by
  rcases hp : parseCampusDate now ev.date with _ | dt
  · simp [fallbackClassification, hp] at h
  · simp only [fallbackClassification, hp, Except.ok.injEq] at h
    subst h
    have hq1 : (0 : Rat) ≤ 1 / 4 := by norm_num
    have hq2 : (1 : Rat) / 4 ≤ 1 := by norm_num
    simp only [schemaValidB, Bool.and_eq_true, decide_eq_true_eq]
    exact ⟨⟨⟨⟨⟨⟨⟨fbCategory_contains _, fbTags_length_le _ _⟩,
      fbAudience_length_ge _⟩, fbAudience_length_le _⟩, fbAudience_all_mem _⟩,
      fbLocationType_contains _⟩, hq1⟩, hq2⟩

theorem retryGo_cases (client : Nat → Except RemoteError Classification)
    (now : DateTime) (ev : RawEvent) :
    ∀ remaining attempt delay slept,
      (retryGo client now ev attempt delay slept remaining).1
          = fallbackClassification now ev
        ∨ ∃ n c, client n = Except.ok c
            ∧ (retryGo client now ev attempt delay slept remaining).1
                = Except.ok c := by
  intro remaining
  induction remaining with
  | zero =>
    intro attempt delay slept
    cases h : client attempt with
    | ok c => exact Or.inr ⟨attempt, c, h, by simp [retryGo, h]⟩
    | error e =>
      cases hr : retryable e <;> simp [retryGo, h, hr]
  | succ r ih =>
    intro attempt delay slept
    cases h : client attempt with
    | ok c => exact Or.inr ⟨attempt, c, h, by simp [retryGo, h]⟩
    | error e =>
      cases hr : retryable e
      · simp [retryGo, h, hr]
      · have := ih (attempt + 1) (delay * 2) (slept + delay)
        simpa [retryGo, h, hr] using this

theorem retryGo_attempts_le (client : Nat → Except RemoteError Classification)
    (now : DateTime) (ev : RawEvent) :
    ∀ remaining attempt delay slept,
      (retryGo client now ev attempt delay slept remaining).2.2
        ≤ attempt + remaining + 1 := by
  intro remaining
  induction remaining with
  | zero =>
    intro attempt delay slept
    cases h : client attempt with
    | ok c => simp [retryGo, h]
    | error e => cases hr : retryable e <;> simp [retryGo, h, hr]
  | succ r ih =>
    intro attempt delay slept
    cases h : client attempt with
    | ok c => simp [retryGo, h]
    | error e =>
      have := ih (attempt + 1) (delay * 2) (slept + delay)
      have h2 : (retryGo client now ev attempt delay slept (r + 1)).2.2
          = (if retryable e then
                retryGo client now ev (attempt + 1) (delay * 2) (slept + delay) r
              else (fallbackClassification now ev, slept, attempt + 1)).2.2 := by
        simp [retryGo, h]
      rw [h2]
      cases hr : retryable e
      · rw [if_neg (by simp [hr])]
        simp
      · rw [if_pos (by simp [hr])]
        omega

theorem jsSliceTo_natCast {α : Type} (l : List α) (k : Nat) :
    jsSliceTo l (JsNum.num (k : Rat)) = l.take k := by
  have h0 : (0 : Rat) ≤ (k : Rat) := by positivity
  have hfl : ((k : Nat) : Rat).floor = (k : Int) := by
    rw [Rat.floor_def']
    simp [Rat.num_natCast, Rat.den_natCast]
  simp only [jsSliceTo, toIntegerOrInfinity, if_pos h0, hfl]
  rw [if_neg (by omega : ¬((k : Int) < 0))]
  have hm : min (k : Int) ((l.length : Nat) : Int)
      = ((min k l.length : Nat) : Int) := by
    omega
  rw [hm, Int.toNat_natCast, ← List.take_take, List.take_length]

theorem jsSliceTo_nan {α : Type} (l : List α) : jsSliceTo l JsNum.nan = [] := by
  simp only [jsSliceTo, toIntegerOrInfinity]
  rw [if_neg (by omega : ¬((0 : Int) < 0))]
  have hm : (min (0 : Int) ((l.length : Nat) : Int)).toNat = 0 := by omega
  rw [hm, List.take_zero]

theorem classifyRows_ok (client : RawEvent → Nat → Except RemoteError Classification)
    (now : DateTime) :
    ∀ (l : List RawEvent) (out : List ClassifiedEvent),
      classifyRows client now l = Except.ok out →
      out.map ClassifiedEvent.event = l
      ∧ ∀ ce ∈ out,
          (classifyWithRetry (client ce.event) now ce.event 2).1
            = Except.ok ce.classification := by
  intro l
  induction l with
  | nil =>
    intro out h
    simp only [classifyRows, Except.ok.injEq] at h
    subst h
    simp
  | cons ev rest ih =>
    intro out h
    rw [classifyRows] at h
    rcases hc : (classifyWithRetry (client ev) now ev 2).1 with e | c
    · rw [hc] at h
      cases h
    · rw [hc] at h
      rcases hr : classifyRows client now rest with e | results
      · rw [hr] at h
        cases h
      · rw [hr] at h
        injection h with h2
        subst h2
        obtain ⟨ih1, ih2⟩ := ih results hr
        refine ⟨by simp [ih1], ?_⟩
        intro ce hce
        rcases List.mem_cons.mp hce with rfl | hmem
        · simpa using hc
        · exact ih2 ce hmem

/-! ### Claim theorems -/

/-- Counterexample for C1: with a permanently failing remote client, two
concrete events make `classifyWithRetry` raise instead of returning a
Classification — the fallback's `toISOString()` throws a RangeError on the
Invalid Date built from a day beyond ECMAScript's ±100,000,000-day range
(`"jan 300000000"`) and from a prototype-chain month token
(`"constructor 5"`); the throw happens inside the catch block and escapes
the Orchestrator, refuting never-raises. -/
theorem spec_C1_counterexample :
    (classifyWithRetry (fun _ => Except.error ⟨some 404, ""⟩) nowEx evClip 2).1
        = Except.error RangeError.invalidTime
    ∧ (classifyWithRetry (fun _ => Except.error ⟨some 404, ""⟩) nowEx evProto 2).1
        = Except.error RangeError.invalidTime := by
  exact ⟨by decide, by decide⟩

/-- Amended C1: the Orchestrator's outcome is always either a successful
remote result or exactly the outcome of the heuristic fallback — it never
produces an error of its own; in particular, for every event on which the
fallback's date serialization succeeds, it never raises and returns a
Classification that is the remote result or the fallback result.  The only
error it can propagate is the fallback's own RangeError on an Invalid
Date. -/
theorem spec_C1_orchestrator_no_own_errors :
    (∀ (client : Nat → Except RemoteError Classification) (now : DateTime)
        (ev : RawEvent) (maxRetries : Nat),
        (classifyWithRetry client now ev maxRetries).1
            = fallbackClassification now ev
        ∨ ∃ n c, client n = Except.ok c
            ∧ (classifyWithRetry client now ev maxRetries).1 = Except.ok c)
    ∧ (∀ (client : Nat → Except RemoteError Classification) (now : DateTime)
        (ev : RawEvent) (maxRetries : Nat) (fb : Classification),
        fallbackClassification now ev = Except.ok fb →
        ∃ c, (classifyWithRetry client now ev maxRetries).1 = Except.ok c
          ∧ (c = fb ∨ ∃ n, client n = Except.ok c)) := by
  constructor
  · intro client now ev maxRetries
    unfold classifyWithRetry
    exact retryGo_cases client now ev maxRetries 0 1500 0
  · intro client now ev maxRetries fb hfb
    rcases retryGo_cases client now ev maxRetries 0 1500 0 with h | ⟨n, c, hc, hres⟩
    · refine ⟨fb, ?_, Or.inl rfl⟩
      unfold classifyWithRetry
      rw [h]
      exact hfb
    · exact ⟨c, hres, Or.inr ⟨n, hc⟩⟩

/-- Witness for C1: with the always-404 client and a well-behaved date, the
Orchestrator delivers a Classification (here the fallback's). -/
theorem spec_C1_orchestrator_no_own_errors_witness :
    ∃ c, (classifyWithRetry (fun _ => Except.error ⟨some 404, ""⟩) nowEx evEx 2).1
        = Except.ok c
      ∧ (c = fbEx
          ∨ ∃ n, (fun _ => Except.error ⟨some 404, ""⟩ :
              Nat → Except RemoteError Classification) n = Except.ok c) :=
  spec_C1_orchestrator_no_own_errors.2 (fun _ => Except.error ⟨some 404, ""⟩)
    nowEx evEx 2 fbEx (by rfl)

/-- Counterexample for C2: the Heuristic Classifier raises on two concrete
RawEvents — a date cell whose day overflows ECMAScript's time range and one
whose month token hits the prototype chain both yield an Invalid Date, and
`toISOString()` throws a RangeError, refuting "never raises". -/
theorem spec_C2_counterexample :
    fallbackClassification nowEx evClip = Except.error RangeError.invalidTime
    ∧ fallbackClassification nowEx evProto = Except.error RangeError.invalidTime := by
  exact ⟨by decide, by decide⟩

/-- Amended C2: whenever the Heuristic Classifier returns (i.e. on every
RawEvent whose date cell parses to a valid Date), its Classification
satisfies every §3 invariant — category in the 10-label set, deduplicated
lowercase tags of length at most 8, audience of 1-3 entries from the 5-value
enum, the normalized date populated with the parsed timestamp, location type
in the 4-label set, confidence fixed at 0.25; and it raises (the RangeError
of `toISOString` on an Invalid Date) exactly when the parsed date is
invalid, never otherwise. -/
theorem spec_C2_fallback_invariants :
    (∀ (now : DateTime) (ev : RawEvent) (c : Classification),
        fallbackClassification now ev = Except.ok c →
        categoryEnum.contains c.category = true
        ∧ c.tags.Nodup
        ∧ c.tags.all (fun t => toLowerStr t == t) = true
        ∧ c.tags.length ≤ 8
        ∧ 1 ≤ c.audience.length
        ∧ c.audience.length ≤ 3
        ∧ c.audience.all (fun a => audienceEnum.contains a) = true
        ∧ parseCampusDate now ev.date = JsDate.valid c.normalized_date
        ∧ locationTypeEnum.contains c.location_type = true
        ∧ c.confidence = 1 / 4)
    ∧ (∀ (now : DateTime) (ev : RawEvent),
        fallbackClassification now ev = Except.error RangeError.invalidTime
          ↔ parseCampusDate now ev.date = JsDate.invalid) := by
  constructor
  · intro now ev c h
    rcases hp : parseCampusDate now ev.date with _ | dt
    · simp [fallbackClassification, hp] at h
    · simp only [fallbackClassification, hp, Except.ok.injEq] at h
      subst h
      refine ⟨fbCategory_contains _, fbTags_nodup _ _, ?_, fbTags_length_le _ _,
        fbAudience_length_ge _, fbAudience_length_le _, fbAudience_all_mem _,
        rfl, fbLocationType_contains _, rfl⟩
      rw [List.all_eq_true]
      intro t ht
      exact beq_iff_eq.mpr (fbTags_lower _ t ht)
  · intro now ev
    constructor
    · intro h
      rcases hp : parseCampusDate now ev.date with _ | dt
      · rfl
      · simp [fallbackClassification, hp] at h
    · intro hp
      simp [fallbackClassification, hp]

/-- Witness for C2: the amended statement applied to a concrete event whose
date is valid. -/
theorem spec_C2_fallback_invariants_witness :
    categoryEnum.contains fbEx.category = true
    ∧ fbEx.tags.Nodup
    ∧ fbEx.tags.all (fun t => toLowerStr t == t) = true
    ∧ fbEx.tags.length ≤ 8
    ∧ 1 ≤ fbEx.audience.length
    ∧ fbEx.audience.length ≤ 3
    ∧ fbEx.audience.all (fun a => audienceEnum.contains a) = true
    ∧ parseCampusDate nowEx evEx.date = JsDate.valid fbEx.normalized_date
    ∧ locationTypeEnum.contains fbEx.location_type = true
    ∧ fbEx.confidence = 1 / 4 :=
  spec_C2_fallback_invariants.1 nowEx evEx fbEx (by rfl)

/-- C3: a failure is retryable iff it carries status 429, a 5xx status, or the
`bad_json` message; a non-retryable failure falls back immediately after one
attempt with no sleep; with the default configuration a client failing twice
with 429 then succeeding yields the remote result after sleeping
1500 + 3000, a client always failing with 404 yields the fallback outcome
after one attempt and no sleep, and the attempt count never exceeds
maxRetries + 1. -/
theorem spec_C3_retry_policy :
    (∀ e : RemoteError,
      retryable e = true ↔
        (e.status = some 429
          ∨ (∃ s, e.status = some s ∧ 500 ≤ s ∧ s < 600)
          ∨ e.message = "bad_json"))
    ∧ (∀ (e : RemoteError) (now : DateTime) (ev : RawEvent),
        retryable e = false →
        classifyWithRetry (fun _ => Except.error e) now ev 2
          = (fallbackClassification now ev, 0, 1))
    ∧ (∀ (c : Classification) (now : DateTime) (ev : RawEvent),
        classifyWithRetry
            (fun n => if n < 2 then Except.error ⟨some 429, ""⟩ else Except.ok c)
            now ev 2
          = (Except.ok c, 1500 + 3000, 3))
    ∧ (∀ (now : DateTime) (ev : RawEvent),
        classifyWithRetry (fun _ => Except.error ⟨some 404, ""⟩) now ev 2
          = (fallbackClassification now ev, 0, 1))
    ∧ (∀ (client : Nat → Except RemoteError Classification) (now : DateTime)
        (ev : RawEvent) (maxRetries : Nat),
        (classifyWithRetry client now ev maxRetries).2.2 ≤ maxRetries + 1) := by
  refine ⟨?_, ?_, ?_, ?_, ?_⟩
  · intro e
    rcases e with ⟨st, msg⟩
    cases st with
    | none => simp [retryable]
    | some s =>
      simp only [retryable, Bool.or_eq_true, beq_iff_eq, Option.some.injEq,
        Bool.and_eq_true, decide_eq_true_eq]
      constructor
      · rintro ((rfl | ⟨h1, h2⟩) | h)
        · exact Or.inl rfl
        · exact Or.inr (Or.inl ⟨s, rfl, h1, h2⟩)
        · exact Or.inr (Or.inr h)
      · rintro (h | ⟨s2, hs2, h1, h2⟩ | h)
        · exact Or.inl (Or.inl h)
        · cases hs2
          exact Or.inl (Or.inr ⟨h1, h2⟩)
        · exact Or.inr h
  · intro e now ev h
    simp [classifyWithRetry, retryGo, h]
  · intro c now ev
    simp [classifyWithRetry, retryGo, retryable]
  · intro now ev
    simp [classifyWithRetry, retryGo, retryable]
  · intro client now ev maxRetries
    have := retryGo_attempts_le client now ev maxRetries 0 1500 0
    unfold classifyWithRetry
    omega

/-- Witness for C3: the 404 failure is non-retryable and the
immediate-fallback consequence holds at it. -/
theorem spec_C3_retry_policy_witness :
    retryable ⟨some 404, "x"⟩ = false
    ∧ classifyWithRetry (fun _ => Except.error ⟨some 404, "x"⟩) nowEx evEx 2
        = (fallbackClassification nowEx evEx, 0, 1) :=
  ⟨by decide, spec_C3_retry_policy.2.1 ⟨some 404, "x"⟩ nowEx evEx (by decide)⟩

/-- Counterexample for C5: a remote response that parses as JSON but violates
the schema (category outside the closed set, empty audience, confidence
above 1) is delivered downstream unchanged by the Orchestrator — the source
performs no local validation of parsed remote output, so the claim that
every parsed remote response satisfies the schema is false. -/
theorem spec_C5_counterexample :
    (classifyWithRetry (fun _ => Except.ok badRemote) nowEx evEx 2).1
        = Except.ok badRemote
    ∧ schemaValidB badRemote = false := by
  exact ⟨by rfl, by decide⟩

/-- Amended C5: every Classification the fallback returns satisfies the
schema, and every Classification the Orchestrator delivers satisfies the
schema provided each successful remote response satisfies it — the remote
side of the invariant is conditional on the external service honoring the
declared schema, since the client only JSON-parses the response and performs
no local re-validation. -/
theorem spec_C5_schema_uniformity
    (client : Nat → Except RemoteError Classification) (now : DateTime)
    (ev : RawEvent) (maxRetries : Nat)
    (hremote : ∀ n c, client n = Except.ok c → schemaValidB c = true) :
    ∀ c, (classifyWithRetry client now ev maxRetries).1 = Except.ok c →
      schemaValidB c = true := by
  intro c hc
  rcases retryGo_cases client now ev maxRetries 0 1500 0 with h | ⟨n, c2, hn, hres⟩
  · unfold classifyWithRetry at hc
    rw [h] at hc
    exact schemaValidB_fallback hc
  · unfold classifyWithRetry at hc
    rw [hres] at hc
    injection hc with h2
    exact h2 ▸ hremote n c2 hn

/-- Witness for C5: a well-behaved remote client's delivered result is
schema-valid. -/
theorem spec_C5_schema_uniformity_witness :
    schemaValidB goodRemote = true :=
  spec_C5_schema_uniformity (fun _ => Except.ok goodRemote) nowEx evEx 2
    (fun _ c h => by
      injection h with h2
      rw [← h2]
      decide)
    goodRemote rfl

/-- C9: the heuristic category equals first-match-wins evaluation of the fixed
ordered rule list (Workshop, Career, Social, Club/Org, Volunteer, Academic,
Sports, Cultural, else Other); in particular any event whose token set
contains both "workshop" and "career" gets category Workshop, both in the
category computation and in any Classification the fallback returns. -/
theorem spec_C9_category_precedence :
    (∀ toks : List String, fbCategory toks = firstMatchCategory toks)
    ∧ (∀ ev : RawEvent,
        hasTok (eventTokens ev) "workshop" = true →
        hasTok (eventTokens ev) "career" = true →
        fbCategory (eventTokens ev) = "Workshop")
    ∧ (∀ (now : DateTime) (ev : RawEvent) (c : Classification),
        fallbackClassification now ev = Except.ok c →
        hasTok (eventTokens ev) "workshop" = true →
        hasTok (eventTokens ev) "career" = true →
        c.category = "Workshop") := by
  refine ⟨?_, ?_, ?_⟩
  · intro toks
    simp only [firstMatchCategory, categoryRules, firstMatch, List.any_cons,
      List.any_nil, Bool.or_false, Bool.or_assoc, fbCategory]
  · intro ev h1 h2
    unfold fbCategory
    rw [h1]
    simp
  · intro now ev c h h1 h2
    rcases hp : parseCampusDate now ev.date with _ | dt
    · simp [fallbackClassification, hp] at h
    · simp only [fallbackClassification, hp, Except.ok.injEq] at h
      subst h
      show fbCategory (eventTokens ev) = "Workshop"
      unfold fbCategory
      rw [h1]
      simp

/-- Witness for C9: a concrete event containing both tokens classifies as
Workshop, in the chain and in the returned Classification. -/
theorem spec_C9_category_precedence_witness :
    hasTok (eventTokens evEx) "workshop" = true
    ∧ hasTok (eventTokens evEx) "career" = true
    ∧ fbCategory (eventTokens evEx) = "Workshop"
    ∧ fbEx.category = "Workshop" :=
  ⟨by decide, by decide,
    spec_C9_category_precedence.2.1 evEx (by decide) (by decide),
    spec_C9_category_precedence.2.2 nowEx evEx fbEx (by rfl) (by decide)
      (by decide)⟩

/-- C7: the Date Normalizer maps "sept 26 6:00pm" to a valid date with month
index 8, day 26, 18:00 (for every clock year a real `getFullYear()` can
report, well inside the ±100,000,000-day range); the empty string and an
unknown-month string return the current instant; and the 12-hour meridiem
conversion adds 12 for "pm" unless the hour is already 12, maps "am" hour 12
to 0 and leaves other hours unchanged (stated for the hours of a 12-hour
clock, which is the domain of the conversion). -/
theorem spec_C7_date_normalizer :
    (∀ now : DateTime, -270000 ≤ now.year → now.year ≤ 270000 →
        parseCampusDate now "sept 26 6:00pm"
          = JsDate.valid ⟨now.year, 8, 26, 18, 0, 0⟩)
    ∧ (∀ now : DateTime, parseCampusDate now "" = JsDate.valid now)
    ∧ (∀ now : DateTime, parseCampusDate now "xyz 5" = JsDate.valid now)
    ∧ (∀ hh ∈ Finset.Icc 1 12,
        to24Hour hh (some "pm") = (if hh = 12 then 12 else hh + 12)
        ∧ to24Hour hh (some "am") = (if hh = 12 then 0 else hh)
        ∧ to24Hour hh none = hh) := by
  refine ⟨?_, fun _ => rfl, fun _ => rfl, by decide⟩
  intro now h1 h2
  show mkDate now.year 8 26 18 0 = JsDate.valid ⟨now.year, 8, 26, 18, 0, 0⟩
  simp only [mkDate, daysFromCivil]
  norm_num
  intro h
  exfalso
  have h3 := h (by omega)
  omega

/-- Witness for C7: the normalizer at the quoted input under the concrete
clock, and the meridiem rules at hour 6. -/
theorem spec_C7_date_normalizer_witness :
    parseCampusDate nowEx "sept 26 6:00pm"
      = JsDate.valid ⟨nowEx.year, 8, 26, 18, 0, 0⟩
    ∧ (to24Hour 6 (some "pm") = (if 6 = 12 then 12 else 6 + 12)
        ∧ to24Hour 6 (some "am") = (if 6 = 12 then 0 else 6)
        ∧ to24Hour 6 none = 6) :=
  ⟨spec_C7_date_normalizer.1 nowEx (by decide) (by decide),
    spec_C7_date_normalizer.2.2.2 6 (by decide)⟩

/-- Counterexample for C8: "jan foo" has an unparseable day token, yet the
Normalizer does not return the current instant — it defaults the day to 1
and builds a valid January date, so the claim fails for day-token
failures. -/
theorem spec_C8_counterexample :
    jsParseInt "foo" = none
    ∧ monthLookup "jan" = MonthLookup.month 0
    ∧ parseCampusDate nowEx "jan foo" ≠ JsDate.valid nowEx
    ∧ parseCampusDate nowEx "jan foo" = JsDate.valid ⟨2026, 0, 1, 9, 0, 0⟩ := by
  exact ⟨by decide, by decide, by decide, by decide⟩

/-- Amended C8: if the month token resolves neither in the month table nor —
being a JS property read — to an inherited `Object.prototype` name, the
Normalizer returns the current instant (and never raises, being total); if
it hits the prototype chain (`"constructor"` or `"__proto__"`), the junk
month coerces to NaN and an Invalid Date results instead of the current
instant; if the month resolves but the day token is not a valid integer, the
day defaults to 1 and the parse proceeds through the Date constructor — the
current instant is not returned. -/
theorem spec_C8_unparseable_inputs :
    (∀ (now : DateTime) (s : String),
        monthLookup ((partsOf s).headD "") = MonthLookup.undefinedVal →
        parseCampusDate now s = JsDate.valid now)
    ∧ (∀ (now : DateTime) (s : String), s ≠ "" →
        monthLookup ((partsOf s).headD "") = MonthLookup.protoJunk →
        parseCampusDate now s = JsDate.invalid)
    ∧ (∀ (now : DateTime) (s : String) (mo : Nat), s ≠ "" →
        monthLookup ((partsOf s).headD "") = MonthLookup.month mo →
        jsParseInt ((partsOf s).getD 1 "") = none →
        parseCampusDate now s
          = mkDate now.year mo 1
              (timeOf (joinSpace ((partsOf s).drop 2))).1
              (timeOf (joinSpace ((partsOf s).drop 2))).2) := by
  refine ⟨?_, ?_, ?_⟩
  · intro now s h
    by_cases hs : s = ""
    · simp [parseCampusDate, hs]
    · simp only [List.headD_eq_head?_getD] at h
      simp [parseCampusDate, hs, h]
  · intro now s hs h
    simp only [List.headD_eq_head?_getD] at h
    simp [parseCampusDate, hs, h]
  · intro now s mo hs hmo hd
    simp only [List.headD_eq_head?_getD] at hmo
    simp only [List.getD_eq_getElem?_getD] at hd
    simp [parseCampusDate, hs, hmo, jsDay, hd]

/-- Witness for C8: the amended statement applied at the concrete inputs
"constructor 5" (prototype-chain month) and "jan foo" (day defaulted). -/
theorem spec_C8_unparseable_inputs_witness :
    parseCampusDate nowEx "constructor 5" = JsDate.invalid
    ∧ parseCampusDate nowEx "jan foo"
        = mkDate nowEx.year 0 1
            (timeOf (joinSpace ((partsOf "jan foo").drop 2))).1
            (timeOf (joinSpace ((partsOf "jan foo").drop 2))).2 :=
  ⟨spec_C8_unparseable_inputs.2.1 nowEx "constructor 5" (by decide) (by decide),
    spec_C8_unparseable_inputs.2.2 nowEx "jan foo" 0 (by decide) (by decide)
      (by decide)⟩

/-- C6: on the failure paths of `POST /api/refresh` the cache is unchanged —
a token mismatch while a (non-empty) secret is configured yields 401 with
`{ok: false, error: "unauthorized"}` and no other effect, and an upstream
data-source failure yields 500 carrying the underlying message while the
previous cache is fully preserved. -/
theorem spec_C6_refresh_failure_paths :
    (∀ (t : String) (maxEv reqToken : Option String)
        (fetch : Except SheetsError (List (List String)))
        (client : RawEvent → Nat → Except RemoteError Classification)
        (now : DateTime) (cache : List ClassifiedEvent),
        t ≠ "" → reqToken ≠ some t →
        refreshHandler (some t) maxEv reqToken fetch client now cache
          = (cache, ⟨401, false, some "unauthorized", none⟩))
    ∧ (∀ (rt maxEv reqToken : Option String) (msg : String)
        (client : RawEvent → Nat → Except RemoteError Classification)
        (now : DateTime) (cache : List ClassifiedEvent),
        tokenRejected rt reqToken = false → msg ≠ "" →
        refreshHandler rt maxEv reqToken (Except.error ⟨msg⟩) client now cache
          = (cache, ⟨500, false, some msg, none⟩)) := by
  constructor
  · intro t maxEv reqToken fetch client now cache ht hreq
    have hrej : tokenRejected (some t) reqToken = true := by
      simp [tokenRejected, ht, hreq]
    simp [refreshHandler, hrej]
  · intro rt maxEv reqToken msg client now cache htok hmsg
    simp [refreshHandler, htok, hmsg]

/-- Witness for C6: a concrete rejected token and a concrete upstream failure,
each leaving a concrete non-empty cache in place. -/
theorem spec_C6_refresh_failure_paths_witness :
    refreshHandler (some "sec") none (some "bad") (Except.ok [])
        (fun _ _ => Except.error ⟨some 404, ""⟩) nowEx [⟨evEx, goodRemote⟩]
      = ([⟨evEx, goodRemote⟩], ⟨401, false, some "unauthorized", none⟩)
    ∧ refreshHandler none none none (Except.error ⟨"boom"⟩)
        (fun _ _ => Except.error ⟨some 404, ""⟩) nowEx [⟨evEx, goodRemote⟩]
      = ([⟨evEx, goodRemote⟩], ⟨500, false, some "boom", none⟩) :=
  ⟨spec_C6_refresh_failure_paths.1 "sec" none (some "bad") (Except.ok []) _
      nowEx _ (by decide) (by decide),
    spec_C6_refresh_failure_paths.2 none none none "boom" _ nowEx _ (by decide)
      (by decide)⟩

/-- C4: a successful refresh (token accepted, rows fetched, every processed
row classified without the fallback raising — the claim's "successful Batch
Pipeline run") with a configured integer cap produces exactly the first
`min(input length, cap)` rows: the new cache is that batch, its events are
the input rows in order with exactly one Classification each, and the
right-hand sides never mention the prior cache, so nothing of it is
retained. -/
theorem spec_C4_batch_pipeline
    (rt reqToken : Option String) (s : String) (k : Nat)
    (rows : List (List String))
    (client : RawEvent → Nat → Except RemoteError Classification)
    (now : DateTime) (cache out : List ClassifiedEvent)
    (htok : tokenRejected rt reqToken = false) (hs : s ≠ "")
    (hnum : jsNumber s = JsNum.num (k : Rat))
    (hcls : classifyRows client now ((rows.map rowToEvent).take k)
        = Except.ok out) :
    (refreshHandler rt (some s) reqToken (Except.ok rows) client now cache).1
        = out
    ∧ out.map ClassifiedEvent.event = (rows.map rowToEvent).take k
    ∧ (∀ ce ∈ out,
        (classifyWithRetry (client ce.event) now ce.event 2).1
          = Except.ok ce.classification)
    ∧ (refreshHandler rt (some s) reqToken (Except.ok rows) client now cache).1.length
        = min rows.length k
    ∧ (refreshHandler rt (some s) reqToken (Except.ok rows) client now cache).2
        = ⟨200, true, none, some (min rows.length k)⟩ := by
  have hslice : jsSliceTo (rows.map rowToEvent) (jsNumber s)
      = (rows.map rowToEvent).take k := by
    rw [hnum]
    exact jsSliceTo_natCast (rows.map rowToEvent) k
  obtain ⟨hmap, hel⟩ := classifyRows_ok client now _ out hcls
  have hlen : out.length = min rows.length k := by
    have h2 := congrArg List.length hmap
    rw [List.length_map, List.length_take, List.length_map] at h2
    omega
  have hmain :
      (refreshHandler rt (some s) reqToken (Except.ok rows) client now cache).1
        = out := by
    simp only [refreshHandler, htok, Bool.false_eq_true, if_false,
      effectiveMax, if_neg hs, hslice, hcls]
  have hresp :
      (refreshHandler rt (some s) reqToken (Except.ok rows) client now cache).2
        = ⟨200, true, none, some out.length⟩ := by
    simp only [refreshHandler, htok, Bool.false_eq_true, if_false,
      effectiveMax, if_neg hs, hslice, hcls]
  refine ⟨hmain, hmap, hel, ?_, ?_⟩
  · rw [hmain, hlen]
  · rw [hresp, hlen]

/-- Witness for C4: a three-row batch with cap 2 keeps exactly the first two
rows in order and replaces a non-empty prior cache. -/
theorem spec_C4_batch_pipeline_witness :
    (refreshHandler none (some "2") none
        (Except.ok [["A"], ["B"], ["C"]])
        (fun _ _ => Except.error ⟨some 404, ""⟩) nowEx [⟨evEx, goodRemote⟩]).1
      = [⟨rowToEvent ["A"], clsOther⟩, ⟨rowToEvent ["B"], clsOther⟩]
    ∧ ([⟨rowToEvent ["A"], clsOther⟩, ⟨rowToEvent ["B"], clsOther⟩] :
          List ClassifiedEvent).map ClassifiedEvent.event
      = (([["A"], ["B"], ["C"]] : List (List String)).map rowToEvent).take 2
    ∧ (∀ ce ∈ ([⟨rowToEvent ["A"], clsOther⟩, ⟨rowToEvent ["B"], clsOther⟩] :
          List ClassifiedEvent),
        (classifyWithRetry
            ((fun _ _ => Except.error ⟨some 404, ""⟩) ce.event) nowEx ce.event 2).1
          = Except.ok ce.classification)
    ∧ (refreshHandler none (some "2") none
        (Except.ok [["A"], ["B"], ["C"]])
        (fun _ _ => Except.error ⟨some 404, ""⟩) nowEx [⟨evEx, goodRemote⟩]).1.length
      = min ([["A"], ["B"], ["C"]] : List (List String)).length 2
    ∧ (refreshHandler none (some "2") none
        (Except.ok [["A"], ["B"], ["C"]])
        (fun _ _ => Except.error ⟨some 404, ""⟩) nowEx [⟨evEx, goodRemote⟩]).2
      = ⟨200, true, none, some (min ([["A"], ["B"], ["C"]] : List (List String)).length 2)⟩ :=
  spec_C4_batch_pipeline none none "2" 2 [["A"], ["B"], ["C"]]
    (fun _ _ => Except.error ⟨some 404, ""⟩) nowEx [⟨evEx, goodRemote⟩]
    [⟨rowToEvent ["A"], clsOther⟩, ⟨rowToEvent ["B"], clsOther⟩]
    (by decide) (by decide) (by decide) (by rfl)

/-- C10: when MAX_EVENTS is a non-empty string that does not parse as a
number under the full `Number()` grammar (decimal with fraction and
exponent, hex, octal, binary, signed `Infinity`), `Number(...)` is NaN,
`slice(0, NaN)` keeps nothing, and a successful refresh classifies zero
rows, replaces the cache with the empty list and responds
`{ok: true, count: 0}` regardless of how many rows the source returned. -/
theorem spec_C10_nan_cap
    (rt reqToken : Option String) (s : String) (rows : List (List String))
    (client : RawEvent → Nat → Except RemoteError Classification)
    (now : DateTime) (cache : List ClassifiedEvent)
    (htok : tokenRejected rt reqToken = false) (hs : s ≠ "")
    (hnan : jsNumber s = JsNum.nan) :
    refreshHandler rt (some s) reqToken (Except.ok rows) client now cache
      = ([], ⟨200, true, none, some 0⟩) := by
  have hslice : jsSliceTo (rows.map rowToEvent) (jsNumber s) = [] := by
    rw [hnan]
    exact jsSliceTo_nan (rows.map rowToEvent)
  simp only [refreshHandler, htok, Bool.false_eq_true, if_false,
    effectiveMax, if_neg hs, hslice, classifyRows, List.length_nil]

/-- Witness for C10: MAX_EVENTS set to "abc" with two source rows yields an
empty cache and count 0. -/
theorem spec_C10_nan_cap_witness :
    refreshHandler none (some "abc") none (Except.ok [["A"], ["B"]])
        (fun _ _ => Except.error ⟨some 404, ""⟩) nowEx [⟨evEx, goodRemote⟩]
      = ([], ⟨200, true, none, some 0⟩) :=
  spec_C10_nan_cap none none "abc" [["A"], ["B"]]
    (fun _ _ => Except.error ⟨some 404, ""⟩) nowEx [⟨evEx, goodRemote⟩]
    (by decide) (by decide) (by decide)

end EventTracker
